import Mathlib

/-!
Verification of the rag-chunking-comparison repository.

This file shallowly embeds the algorithmic core of the repository
(src/api/chunking.py, src/api/ragas_metrics.py, src/api/evaluation.py,
src/api/analysis.py) in Lean and settles a list of claims about it.

Modelling conventions:
* Python `float` arithmetic is idealised as exact rational arithmetic (`ℚ`);
  `np.sqrt`-style square roots are modelled by `Rat.sqrt`, which agrees with
  the real square root whenever the radicand is a perfect rational square —
  every theorem below evaluates square roots only at such points.
* External libraries (tiktoken's encoder, nltk's sentence splitter, the OpenAI
  and sentence-transformers embedding models, numpy's RNG) are parameters of
  the embedded functions: a token counter `tc : String → ℕ`, a sentence list,
  an embedding table `embeds : List (List ℚ)`, an encoder
  `enc : String → List ℚ`, and an RNG stream `rng : ℕ → ℚ`.
* Python strings are Lean `String`s; `str.split()`, `str.strip()`,
  `str.lower()`, `x in s`, `str.replace` and `re.split` on a character class
  are re-implemented below on `List Char`, structurally recursively so that
  they evaluate inside `decide`.
* Python dicts keyed by the five RAGAS metric names are modelled as functions
  out of a five-constructor inductive type.
-/

/-! ## Python string primitives -/

/-- Characters Python's `str.split()` and `str.strip()` treat as whitespace
(the ASCII ones; the embedded texts contain no exotic whitespace). -/
def pyWs (c : Char) : Bool := c.isWhitespace

/-- Worker for `splitRuns`: `some acc` means a segment `acc` (reversed) is
being built, `none` means we are inside a run of separator characters. -/
def splitRunsGo (p : Char → Bool) : List Char → Option (List Char) → List (List Char)
  | [], some acc => [acc.reverse]
  | [], none => [[]]
  | c :: cs, some acc =>
    if p c then acc.reverse :: splitRunsGo p cs none else splitRunsGo p cs (some (c :: acc))
  | c :: cs, none =>
    if p c then splitRunsGo p cs none else splitRunsGo p cs (some [c])

/-- Python `re.split(r'[X]+', text)` for a character class `X`: the segments
between maximal runs of separator characters, with a leading/trailing empty
segment when the text starts/ends with a separator. -/
def splitRuns (p : Char → Bool) (cs : List Char) : List (List Char) :=
  splitRunsGo p cs (some [])

/-- Python `text.split()`: whitespace-separated words, no empty words. -/
def pyWords (s : String) : List String :=
  ((splitRuns pyWs s.toList).filter (fun w => !List.isEmpty w)).map (fun w => String.mk w)

/-- Python `text.strip()`. -/
def pyStrip (s : String) : String :=
  String.mk (((s.toList.dropWhile (fun c => pyWs c)).reverse.dropWhile (fun c => pyWs c)).reverse)

/-- Python `text.lower()` (ASCII case folding; the sources only lower-case
ASCII text). -/
def pyLowerS (s : String) : String := String.mk (s.toList.map Char.toLower)

/-- Decidable list-prefix test (needle, haystack). -/
def listIsPre : List Char → List Char → Bool
  | [], _ => true
  | _ :: _, [] => false
  | a :: as, b :: bs => a == b && listIsPre as bs

/-- Python's substring test `needle in hay`. -/
def pyIn (needle hay : String) : Bool :=
  hay.toList.tails.any (fun t => listIsPre needle.toList t)

/-- Python `sep.join(xs)`. -/
def pyJoin (sep : String) : List String → String
  | [] => ""
  | x :: xs => xs.foldl (fun acc y => acc ++ sep ++ y) x

/-- Worker for `pyReplace`; the fuel starts at the text length, which is
enough because every step consumes at least one character. -/
def pyReplaceGo (old new : List Char) : ℕ → List Char → List Char
  | _, [] => []
  | 0, cs => cs
  | fuel + 1, c :: cs =>
    if !List.isEmpty old && listIsPre old (c :: cs) then
      new ++ pyReplaceGo old new fuel (cs.drop (old.length - 1))
    else
      c :: pyReplaceGo old new fuel cs

/-- Python `s.replace(old, new)`: replace non-overlapping occurrences left to
right (the sources only call it with a non-empty `old`). -/
def pyReplace (s old new : String) : String :=
  String.mk (pyReplaceGo old.toList new.toList s.toList.length s.toList)

/-! ## Naive chunker (src/api/chunking.py, lines 61-78)

`naive_chunk` tokenises with tiktoken (external) and windows the token list:
`for i in range(0, len(tokens), chunk_size - overlap): tokens[i:i + chunk_size]`.
We model it at the token level; decoding each window back to text and the
`index`/`token_count`/`start_token` metadata are derived from the windows.
The fuel argument of the worker starts at the token-list length, which is
enough whenever the step is at least 1 (Python raises on step 0; the model
returns no further windows then, a case no theorem below instantiates). -/

def naiveWindows (chunkSize step : ℕ) : ℕ → List ℕ → List (List ℕ)
  | _, [] => []
  | 0, _ :: _ => []
  | fuel + 1, t :: ts => (t :: ts).take chunkSize :: naiveWindows chunkSize step fuel ((t :: ts).drop step)

/-- LightweightChunker.naive_chunk, as the list of token windows. -/
def naive_chunk (tokens : List ℕ) (chunk_size overlap : ℕ) : List (List ℕ) :=
  naiveWindows chunk_size (chunk_size - overlap) tokens.length tokens

/-! ## Vector arithmetic (numpy / sklearn helpers used by chunking.py)

`np.dot`, vector mean along axis 0, and sklearn's `cosine_similarity`.
Norms are `Rat.sqrt` of the self-dot-product (exact on perfect squares;
see the file header). -/

def dotL (a b : List ℚ) : ℚ := (List.zipWith (fun x y => x * y) a b).sum

def normL (v : List ℚ) : ℚ := Rat.sqrt (dotL v v)

/-- Cosine similarity: dot product over the product of magnitudes. -/
def cosineSim (a b : List ℚ) : ℚ := dotL a b / (normL a * normL b)

def addV (a b : List ℚ) : List ℚ := List.zipWith (fun x y => x + y) a b

/-- `np.mean(vectors, axis=0)`: componentwise mean (never called on `[]`). -/
def meanVec : List (List ℚ) → List ℚ
  | [] => []
  | v :: vs => (vs.foldl addV v).map (fun x => x / ((vs.length + 1 : ℕ) : ℚ))

/-! ## Semantic chunker (src/api/chunking.py, lines 80-140)

`semantic_chunk` splits the text into sentences with nltk and embeds them
with `get_embeddings_batch` (both external); the model takes the sentence
list and the embedding table directly, plus the tiktoken token counter
`tc`. -/

structure SemChunk where
  text : String
  index : ℕ
  token_count : ℕ
  sentence_count : ℕ
deriving DecidableEq, Repr

/-- Loop state of `semantic_chunk`: emitted chunks, the sentences of the open
chunk, and its running token count. -/
structure SemState where
  chunks : List SemChunk
  current : List String
  current_tokens : ℕ
deriving DecidableEq, Repr

/-- Closing the open chunk (chunking.py lines 114-122 and 130-138):
sentences joined by one space, index = number of chunks emitted so far. -/
def mkSemChunk (st : SemState) : SemChunk :=
  { text := pyJoin " " st.current, index := st.chunks.length,
    token_count := st.current_tokens, sentence_count := st.current.length }

/-- The merge test of chunking.py lines 107-108:
`similarity >= similarity_threshold and current_tokens + sentence_tokens <= max_tokens`. -/
def mergeOk (θ : ℚ) (maxT : ℕ) (current_tokens : ℕ) (sim : ℚ) (sentTok : ℕ) : Bool :=
  decide (θ ≤ sim) && decide (current_tokens + sentTok ≤ maxT)

/-- The mean embedding the code compares against (chunking.py line 103):
`np.mean([embeddings_array[j] for j in range(len(current_chunk))], axis=0)`.
Faithful to the source: the indices `j` run over `0 .. len(current_chunk)-1`
of the GLOBAL embeddings array — the first `len(current_chunk)` sentences of
the document — not over the open chunk's own sentences. -/
def chunkEmbedding (embeds : List (List ℚ)) (st : SemState) : List ℚ :=
  meanVec ((List.range st.current.length).map (fun j => embeds.getD j []))

/-- One iteration of the sentence loop (chunking.py lines 95-126) on the
enumerated sentence `(i, sentence)`. -/
def semStep (tc : String → ℕ) (embeds : List (List ℚ)) (θ : ℚ) (maxT minT : ℕ)
    (st : SemState) (is : ℕ × String) : SemState :=
  let sentTok := tc is.2
  if st.current.isEmpty then
    { st with current := [is.2], current_tokens := sentTok }
  else
    let sim := cosineSim (chunkEmbedding embeds st) (embeds.getD is.1 [])
    if mergeOk θ maxT st.current_tokens sim sentTok then
      { st with current := st.current ++ [is.2], current_tokens := st.current_tokens + sentTok }
    else
      { chunks := st.chunks ++ (if minT ≤ st.current_tokens then [mkSemChunk st] else []),
        current := [is.2], current_tokens := sentTok }

/-- LightweightChunker.semantic_chunk (lines 80-140), over the sentence list
and embedding table. -/
def semantic_chunk (tc : String → ℕ) (embeds : List (List ℚ)) (sentences : List String)
    (θ : ℚ) (maxT minT : ℕ) : List SemChunk :=
  if sentences.isEmpty then []
  else
    let fin := sentences.enum.foldl (semStep tc embeds θ maxT minT) ⟨[], [], 0⟩
    fin.chunks ++ (if fin.current ≠ [] ∧ minT ≤ fin.current_tokens then [mkSemChunk fin] else [])

/-! ### Specification variant of the semantic chunker

Modelled from the spec: "For each subsequent sentence, compute the mean
embedding of all sentences currently in the open chunk, and its cosine
similarity to the candidate sentence's embedding." The state additionally
tracks the document indices of the open chunk's sentences, and the mean is
taken over exactly those. Everything else matches the source model above. -/

structure SemStateS where
  chunks : List SemChunk
  current : List String
  currentIdx : List ℕ
  current_tokens : ℕ
deriving DecidableEq, Repr

def mkSemChunkS (st : SemStateS) : SemChunk :=
  { text := pyJoin " " st.current, index := st.chunks.length,
    token_count := st.current_tokens, sentence_count := st.current.length }

/-- Mean embedding of exactly the open chunk's sentences (the spec's words). -/
def chunkEmbeddingS (embeds : List (List ℚ)) (st : SemStateS) : List ℚ :=
  meanVec (st.currentIdx.map (fun j => embeds.getD j []))

def semStepS (tc : String → ℕ) (embeds : List (List ℚ)) (θ : ℚ) (maxT minT : ℕ)
    (st : SemStateS) (is : ℕ × String) : SemStateS :=
  let sentTok := tc is.2
  if st.current.isEmpty then
    { st with current := [is.2], currentIdx := [is.1], current_tokens := sentTok }
  else
    let sim := cosineSim (chunkEmbeddingS embeds st) (embeds.getD is.1 [])
    if mergeOk θ maxT st.current_tokens sim sentTok then
      { st with current := st.current ++ [is.2],
                currentIdx := st.currentIdx ++ [is.1],
                current_tokens := st.current_tokens + sentTok }
    else
      { chunks := st.chunks ++ (if minT ≤ st.current_tokens then [mkSemChunkS st] else []),
        current := [is.2], currentIdx := [is.1], current_tokens := sentTok }

def semantic_chunk_spec (tc : String → ℕ) (embeds : List (List ℚ)) (sentences : List String)
    (θ : ℚ) (maxT minT : ℕ) : List SemChunk :=
  if sentences.isEmpty then []
  else
    let fin := sentences.enum.foldl (semStepS tc embeds θ maxT minT) ⟨[], [], [], 0⟩
    fin.chunks ++ (if fin.current ≠ [] ∧ minT ≤ fin.current_tokens then [mkSemChunkS fin] else [])

/-! ### Concrete inputs for the semantic-chunker claims

Three sentences of 10 tokens each, with unit embeddings
`e0 = [1,0], e1 = [0,1], e2 = [1,0]`, threshold 7/10, max_tokens 100,
min_tokens 1. -/

def tcW : String → ℕ := fun _ => 10
def embW : List (List ℚ) := [[1, 0], [0, 1], [1, 0]]
def sentsW : List String := ["s0", "s1", "s2"]

/-! ## Demo-mode embeddings (src/api/chunking.py, lines 39-43 and 56-59)

Without an API key (or when the provider call fails) `get_embeddings_batch`
returns `[np.random.rand(1536).tolist() for _ in texts]`: each vector is 1536
fresh draws from numpy's process-global RNG. The RNG is modelled as a stream
`rng : ℕ → ℚ` of variates together with the current position `pos`; the call
consumes `1536 * len(texts)` variates and returns the advanced position. -/

def get_embeddings_batch_demo (rng : ℕ → ℚ) (pos : ℕ) (texts : List String) :
    List (List ℚ) × ℕ :=
  (texts.enum.map (fun p => (List.range 1536).map (fun j => rng (pos + 1536 * p.1 + j))),
   pos + 1536 * texts.length)

/-- A concrete RNG stream (the n-th variate is the rational n). -/
def demoStream : ℕ → ℚ := fun n => mkRat n 1

/-! ## RAGAS metric engine (src/api/ragas_metrics.py)

The `embedding_model`-present branches call `SentenceTransformer.encode`
(external), modelled as a parameter `enc : String → List ℚ`; every other
branch is pure text processing and is embedded directly. Python's `0.6`,
`0.3`, `0.5` float literals are the rationals `3/5`, `3/10`, `1/2`. -/

def supportStopWords : List String := ["this", "that", "these", "those", "with", "from"]

def statementDelim (c : Char) : Bool := c = '.' || c = '!' || c = '?' || c = ';'

/-- RAGASMetrics._extract_statements (lines 363-374): split on `[.!?;]+`,
strip, keep fragments with more than 3 whitespace words. -/
def extract_statements (text : String) : List String :=
  ((splitRuns statementDelim text.toList).map (fun cs => pyStrip (String.mk cs))).filter
    (fun s => decide (3 < (pyWords s).length))

/-- RAGASMetrics._is_statement_supported (lines 376-389): at least 60% of the
statement's content words (length > 3, minus the stop set) occur as
substrings of the lowercased context; vacuously true with no content words. -/
def is_statement_supported (statement context : String) : Bool :=
  let statement_lower := pyLowerS statement
  let key_words := (pyWords statement_lower).filter
    (fun w => decide (3 < w.length) && !supportStopWords.contains w)
  if key_words.isEmpty then true
  else decide ((key_words.length : ℚ) * (3 / 5) ≤
    ((key_words.filter (fun w => pyIn w context)).length : ℚ))

/-- Per-answer faithfulness: the body of the `compute_faithfulness` loop
(lines 197-217), identical to `_compute_single_faithfulness` (lines 65-81). -/
def single_faithfulness (answer : String) (contexts : List String) : ℚ :=
  if answer = "" ∨ contexts = [] then 0
  else
    let statements := extract_statements answer
    if statements = [] then 1
    else
      let context_text := pyLowerS (pyJoin " " contexts)
      ((statements.filter (fun s => is_statement_supported s context_text)).length : ℚ) /
        (statements.length : ℚ)

/-- RAGASMetrics.compute_faithfulness (lines 188-219): mean of the per-answer
scores, 0.0 on an empty zip. -/
def compute_faithfulness (answers : List String) (contexts : List (List String)) : ℚ :=
  let scores := (answers.zip contexts).map (fun p => single_faithfulness p.1 p.2)
  if scores = [] then 0 else scores.sum / (scores.length : ℚ)

def relevancyStopWords : List String :=
  ["the", "a", "an", "is", "are", "was", "were", "what", "how", "why", "when", "where"]

/-- RAGASMetrics._fallback_relevancy (lines 391-405): stop-word-filtered word
sets, `min(overlap / |question words|, 1.0)`, 0.5 when no question words. -/
def fallback_relevancy (question answer : String) : ℚ :=
  let q_words := (pyWords (pyLowerS question)).dedup.filter
    (fun w => !relevancyStopWords.contains w)
  let a_words := (pyWords (pyLowerS answer)).dedup.filter
    (fun w => !relevancyStopWords.contains w)
  if q_words = [] then 1 / 2
  else min (((q_words.inter a_words).length : ℚ) / (q_words.length : ℚ)) 1

/-- Per-pair relevancy on the no-embedding-model path (lines 83-97). -/
def single_relevancy_fb (question answer : String) : ℚ :=
  if question = "" ∨ answer = "" then 0 else fallback_relevancy question answer

/-- RAGASMetrics.compute_answer_relevancy (lines 221-248), fallback path. -/
def compute_answer_relevancy_fb (questions answers : List String) : ℚ :=
  let scores := (questions.zip answers).map (fun p => single_relevancy_fb p.1 p.2)
  if scores = [] then 0 else scores.sum / (scores.length : ℚ)

/-- RAGASMetrics.compute_answer_relevancy (lines 221-248) with an embedding
model `enc`: the raw cosine similarity `np.dot/(norm*norm)` is appended as
the score — no flooring at 0 appears in the source. -/
def compute_answer_relevancy_model (enc : String → List ℚ) (questions answers : List String) : ℚ :=
  let scores := (questions.zip answers).map
    (fun p => if p.1 = "" ∨ p.2 = "" then 0 else cosineSim (enc p.1) (enc p.2))
  if scores = [] then 0 else scores.sum / (scores.length : ℚ)

/-- RAGASMetrics._is_context_relevant_to_answer (lines 407-423). -/
def is_context_relevant_to_answer (context answer question : String) : Bool :=
  let context_lower := pyLowerS context
  let answer_lower := pyLowerS answer
  let question_lower := pyLowerS question
  let key_terms := ((pyWords question_lower).filter (fun w => decide (4 < w.length)) ++
    (pyWords answer_lower).filter (fun w => decide (4 < w.length))).dedup
  let matchCount := (key_terms.filter (fun t => pyIn t context_lower)).length
  decide (max 1 ((key_terms.length : ℚ) * (3 / 10)) ≤ (matchCount : ℚ))

/-- The precision@k accumulation loop of context precision (lines 278-285):
`k` is the 0-based position, `sofar` the relevant count so far; a relevance
entry counts when it is non-zero (Python float truthiness). -/
def precision_sum_go : List ℚ → ℕ → ℕ → ℚ
  | [], _, _ => 0
  | r :: rest, k, sofar =>
    if r ≠ 0 then
      ((sofar + 1 : ℕ) : ℚ) / ((k + 1 : ℕ) : ℚ) + precision_sum_go rest (k + 1) (sofar + 1)
    else precision_sum_go rest (k + 1) sofar

/-- Per-question context precision: the body of the `compute_context_precision`
loop (lines 262-288), identical to `_compute_single_precision` (118-140). -/
def single_precision (question : String) (contexts : List String) (ground_truth : String) : ℚ :=
  if contexts = [] then 0
  else
    let relevance_scores := contexts.map
      (fun c => if is_context_relevant_to_answer c ground_truth question then (1 : ℚ) else 0)
    if relevance_scores.sum = 0 then 0
    else precision_sum_go relevance_scores 0 0 / relevance_scores.sum

/-- RAGASMetrics.compute_context_precision (lines 250-290). -/
def compute_context_precision (questions : List String) (contexts : List (List String))
    (ground_truths : List String) : ℚ :=
  let scores := (questions.zip (contexts.zip ground_truths)).map
    (fun p => single_precision p.1 p.2.1 p.2.2)
  if scores = [] then 0 else scores.sum / (scores.length : ℚ)

def recallPhraseDelim (c : Char) : Bool := c = '.' || c = '!' || c = '?'

def recallArticles : List String := ["the", "a", "an", "is", "are"]

def recallStopWords : List String := ["these", "those", "which", "where"]

/-- RAGASMetrics._extract_key_phrases (lines 425-450): 3-word windows over
sentences longer than 3 words — rejecting windows in which any of
`the/a/an/is/are` occurs as a SUBSTRING, as the source's `w in phrase`
does — plus the first 5 individual words of length > 5; de-duplicated
(the source returns `list(set(phrases))`). -/
def extract_key_phrases (text : String) : List String :=
  let text_lower := pyLowerS text
  let sentences := (splitRuns recallPhraseDelim text.toList).map (fun cs => pyStrip (String.mk cs))
  let triples := sentences.foldr (fun sent acc =>
    (let words := pyWords sent
     if 3 < words.length then
       (((List.range (words.length - 2)).map (fun i => pyJoin " " ((words.drop i).take 3))).filter
          (fun phrase => !recallArticles.any (fun w => pyIn w phrase))).map pyLowerS
     else []) ++ acc) []
  let important_words := ((pyWords text_lower).filter
    (fun w => decide (5 < w.length) && !recallStopWords.contains w)).take 5
  (triples ++ important_words).dedup

/-- RAGASMetrics._is_phrase_covered (lines 452-464). -/
def is_phrase_covered (phrase context : String) : Bool :=
  if !pyIn " " phrase then pyIn phrase context
  else (pyWords phrase).all (fun w => pyIn w context)

/-- Per-question context recall: the body of the `compute_context_recall`
loop (lines 301-325), identical to `_compute_single_recall` (142-161). -/
def single_recall (contexts : List String) (ground_truth : String) : ℚ :=
  if ground_truth = "" then 1
  else if contexts = [] then 0
  else
    let gt_key_phrases := extract_key_phrases ground_truth
    if gt_key_phrases = [] then 1
    else
      let context_text := pyLowerS (pyJoin " " contexts)
      ((gt_key_phrases.filter (fun p => is_phrase_covered p context_text)).length : ℚ) /
        (gt_key_phrases.length : ℚ)

/-- RAGASMetrics.compute_context_recall (lines 292-327). -/
def compute_context_recall (contexts : List (List String)) (ground_truths : List String) : ℚ :=
  let scores := (contexts.zip ground_truths).map (fun p => single_recall p.1 p.2)
  if scores = [] then 0 else scores.sum / (scores.length : ℚ)

/-- Python regex word characters (`\w`): alphanumerics and underscore. -/
def isWordChar (c : Char) : Bool := c.isAlphanum || c = '_'

/-- Worker for `numberTokens`: scans for maximal digit runs that have a word
boundary on both sides (`\b\d+\b`); `prevIsWord` tracks whether the previous
character was a word character. Fuel starts at the text length. -/
def numberRunsGo : ℕ → List Char → Bool → List String
  | _, [], _ => []
  | 0, _ :: _, _ => []
  | fuel + 1, c :: cs, prevIsWord =>
    if c.isDigit && !prevIsWord then
      (if !isWordChar (((c :: cs).dropWhile Char.isDigit).headD ' ') then
        [String.mk ((c :: cs).takeWhile Char.isDigit)]
       else []) ++ numberRunsGo fuel ((c :: cs).dropWhile Char.isDigit) true
    else numberRunsGo fuel cs (isWordChar c)

/-- Python `re.findall(r'\b\d+\b', text)`. -/
def numberTokens (text : String) : List String :=
  numberRunsGo text.toList.length text.toList false

/-- RAGASMetrics._extract_facts (lines 490-508): numbers, the first 10
capitalized words of length > 2 (lowercased), and the first 10 lowercased
words of length > 6, as a set (de-duplicated). -/
def extract_facts (text : String) : List String :=
  let text_lower := pyLowerS text
  let numbers := numberTokens text
  let entities := (((pyWords text).filter
    (fun w => (w.toList.headD ' ').isUpper && decide (2 < w.length))).take 10).map pyLowerS
  let key_terms := ((pyWords text_lower).filter (fun w => decide (6 < w.length))).take 10
  (numbers ++ entities ++ key_terms).dedup

/-- RAGASMetrics._compute_factual_similarity (lines 466-488): F1 over fact
sets. -/
def compute_factual_similarity (answer ground_truth : String) : ℚ :=
  let answer_facts := extract_facts answer
  let gt_facts := extract_facts ground_truth
  if gt_facts = [] then (if answer_facts = [] then 1 else 1 / 2)
  else if answer_facts = [] then 0
  else
    let common := ((answer_facts.inter gt_facts).length : ℚ)
    let precisionScore := common / (answer_facts.length : ℚ)
    let recallScore := common / (gt_facts.length : ℚ)
    if precisionScore + recallScore = 0 then 0
    else 2 * (precisionScore * recallScore) / (precisionScore + recallScore)

/-- Per-pair answer correctness on the no-embedding-model path (lines
99-116 and 336-357): `semantic_score` falls back to the factual score. -/
def single_correctness_fb (answer ground_truth : String) : ℚ :=
  if answer = "" ∨ ground_truth = "" then 0
  else
    let factual_score := compute_factual_similarity answer ground_truth
    let semantic_score := factual_score
    1 / 2 * factual_score + 1 / 2 * semantic_score

/-- RAGASMetrics.compute_answer_correctness (lines 329-359), fallback path. -/
def compute_answer_correctness_fb (answers ground_truths : List String) : ℚ :=
  let scores := (answers.zip ground_truths).map (fun p => single_correctness_fb p.1 p.2)
  if scores = [] then 0 else scores.sum / (scores.length : ℚ)

/-- An encoder sending the question and the answer to antipodal unit vectors. -/
def encNeg : String → List ℚ := fun s => if s = "q" then [1] else [-1]

/-! ## Retrieval simulator (src/api/evaluation.py, lines 154-177)

When `self.embedding_model` is absent — the offline path — lines 157-159
return `chunks[:top_k]` unconditionally; no ranking of any kind happens. -/

set_option linter.unusedVariables false in
/-- RAGASEvaluator._retrieve_relevant_chunks on the no-embedding-model path. -/
def retrieve_relevant_chunks_no_model (question : String) (chunks : List String)
    (top_k : ℕ) : List String :=
  chunks.take top_k

/-- Stable insertion into a descending-sorted list: `x` goes after every
element with a strictly greater score and before the first with an equal or
smaller one (so earlier elements win ties). -/
def insertDesc {α : Type} (score : α → ℕ) (x : α) : List α → List α
  | [] => [x]
  | y :: ys => if score x < score y then y :: insertDesc score x ys else x :: y :: ys

/-- Stable descending sort by a score (insertion sort; ties keep original
order, matching Python's stable `sort(key=..., reverse=True)`). -/
def stableSortDesc {α : Type} (score : α → ℕ) : List α → List α
  | [] => []
  | x :: xs => insertDesc score x (stableSortDesc score xs)

/-- Size of the intersection of the case-insensitive word sets of a question
and a chunk. -/
def word_overlap_score (question chunk : String) : ℕ :=
  ((pyWords (pyLowerS question)).dedup.inter (pyWords (pyLowerS chunk)).dedup).length

/-- Modelled from the spec: "Fallback path (no embedding provider): rank by
count of question-word/chunk-word set intersection (case-insensitive
whitespace tokenization), same tie-break [original chunk order]". This is the
behaviour the claim asserts; the source's fallback performs no such ranking. -/
def rank_by_overlap (question : String) (chunks : List String) (top_k : ℕ) : List String :=
  (stableSortDesc (fun c => word_overlap_score question c) chunks).take top_k

/-! ## Chunking-quality metrics (src/api/evaluation.py, lines 420-459)

Modelled on the no-embedding-model evaluator (the offline path): the
coherence block guarded by `if self.embedding_model` is skipped, so
`coherence_scores` falls back to the length proxy
`min(1.0, 500 / max(len(chunk), 1))`. The source key `coverage_ratio` is the
field `coverage` here. -/

def npMean (l : List ℚ) : ℚ := l.sum / (l.length : ℚ)

def npStd (l : List ℚ) : ℚ := Rat.sqrt (npMean (l.map (fun x => (x - npMean l) ^ 2)))

structure ChunkQuality where
  chunk_count : ℕ
  avg_length : ℚ
  length_std : ℚ
  avg_coherence : ℚ
  coherence_std : ℚ
  coverage : ℚ
deriving DecidableEq, Repr

/-- RAGASEvaluator._calculate_chunking_quality (lines 420-459). The source
returns the literal `1.0` for `coverage_ratio` ("Assume full coverage for
now") on every non-empty input. -/
def calculate_chunking_quality (chunks : List String) : ChunkQuality :=
  if chunks = [] then ⟨0, 0, 0, 0, 0, 0⟩
  else
    let chunk_lengths := chunks.map (fun c => (c.length : ℚ))
    let coherence_scores := chunks.map (fun c => min 1 (500 / max (c.length : ℚ) 1))
    ⟨chunks.length, npMean chunk_lengths, npStd chunk_lengths,
      npMean coherence_scores, npStd coherence_scores, 1⟩

/-! ## Extractive answer synthesizer (src/api/evaluation.py, lines 205-254) -/

def synthStopWords : List String :=
  ["what", "which", "where", "when", "how", "does", "this", "that", "the"]

/-- The candidate sentences: contexts joined by one space, split on `'.'`
(single character, not a run), stripped, empties dropped (line 216). -/
def context_sentences_of (contexts : List String) : List String :=
  ((List.splitOnP (fun c => c = '.') (pyJoin " " contexts).toList).map
    (fun cs => pyStrip (String.mk cs))).filter (fun s => decide (s ≠ ""))

/-- The question keywords of line 219: words of the question whose original
length exceeds 3 and whose lowercase form is outside the stop set, lowercased,
as a set. -/
def question_keywords (question : String) : List String :=
  (((pyWords question).filter
    (fun w => decide (3 < w.length) && !synthStopWords.contains (pyLowerS w))).map pyLowerS).dedup

/-- Lines 221-230: score each context sentence by the number of question
keywords occurring in its lowercase form, keep positive scores, sort stably by
score descending. -/
def qualifying_sentences (question : String) (contexts : List String) : List (ℕ × String) :=
  let question_words := question_keywords question
  stableSortDesc Prod.fst
    (((context_sentences_of contexts).map (fun s =>
      ((question_words.filter (fun w => pyIn w (pyLowerS s))).length, s))).filter
      (fun p => decide (0 < p.1)))

/-- RAGASEvaluator._simulate_answer_generation (lines 205-254). -/
def simulate_answer_generation (question : String) (contexts : List String) : String :=
  if contexts = [] then "No relevant context found to answer this question."
  else
    let relevant_sentences := qualifying_sentences question contexts
    if relevant_sentences = [] then
      (match context_sentences_of contexts with
       | [] => "Unable to generate answer from the provided context."
       | s :: _ => s)
    else
      let answer := pyStrip (pyReplace
        (pyJoin ". " ((relevant_sentences.take 3).map Prod.snd)) ".." ".")
      if answer.length < 50 ∧ 3 < relevant_sentences.length then
        answer ++ ". " ++ (relevant_sentences.getD 3 (0, "")).2
      else answer

/-! ## Comparison/statistics module (src/api/analysis.py)

The RAGAS score dict (keys fixed by `compute_all_metrics`, with the handler
deleting `ragas_score`) is modelled as a function out of the five-metric
type; the outcome of the simulated significance tests — which depend on
numpy's RNG — is an arbitrary predicate `significant : RagasMetric → Bool`. -/

inductive RagasMetric
  | faithfulness
  | answer_relevancy
  | context_precision
  | context_recall
  | answer_correctness
deriving DecidableEq, Repr

def ragasMetricList : List RagasMetric :=
  [.faithfulness, .answer_relevancy, .context_precision, .context_recall, .answer_correctness]

/-- StatisticalAnalyzer._calculate_ragas_improvements (analysis.py lines
60-77): per metric, `((semantic - naive) / naive) * 100` when `naive ≠ 0`,
else `100.0` when `semantic > 0` else `0.0`. -/
def calculate_ragas_improvements (naive_ragas semantic_ragas : RagasMetric → ℚ) :
    RagasMetric → ℚ := fun m =>
  if naive_ragas m = 0 then (if 0 < semantic_ragas m then 100 else 0)
  else ((semantic_ragas m - naive_ragas m) / naive_ragas m) * 100

/-- The overall improvement of `_generate_summary` (lines 231-232): mean of
the improvement values, 0 for an empty dict. -/
def overall_ragas_improvement (improvements : RagasMetric → ℚ) : ℚ :=
  let ragas_scores := ragasMetricList.map improvements
  if ragas_scores = [] then 0 else ragas_scores.sum / (ragas_scores.length : ℚ)

/-- The significant-metric selection of `_generate_summary` (lines 235-238):
metrics whose test is significant AND whose improvement is positive. -/
def significant_metrics (significant : RagasMetric → Bool)
    (improvements : RagasMetric → ℚ) : List RagasMetric :=
  ragasMetricList.filter (fun m => significant m && decide (0 < improvements m))

set_option linter.unusedVariables false in
/-- StatisticalAnalyzer._generate_recommendation (lines 266-284); the
`improvements` argument is unused in the source body as well. -/
def generate_recommendation (overall_improvement : ℚ) (sig_metrics : List RagasMetric)
    (improvements : RagasMetric → ℚ) : String :=
  if 10 < overall_improvement ∧ 3 ≤ sig_metrics.length then
    "Strong recommendation: Semantic chunking shows significant improvements across multiple metrics. Adopt semantic chunking for production use."
  else if 5 < overall_improvement ∧ 2 ≤ sig_metrics.length then
    "Moderate recommendation: Semantic chunking shows meaningful improvements in key metrics. Consider adopting with further validation."
  else if 0 < overall_improvement ∧ 1 ≤ sig_metrics.length then
    "Weak recommendation: Semantic chunking shows some improvements but benefits are limited. Evaluate based on specific use case requirements."
  else if -5 < overall_improvement then
    "Neutral: Both chunking strategies perform similarly. Choice may depend on computational resources and specific requirements."
  else
    "Not recommended: Naive chunking appears to perform better for this dataset. Consider optimizing semantic chunking parameters."

/-! ## Theorems -/

lemma naiveWindows_length_le (chunkSize step : ℕ) :
    ∀ fuel (ts : List ℕ), ∀ w ∈ naiveWindows chunkSize step fuel ts, w.length ≤ chunkSize := by
  intro fuel
  induction fuel with
  | zero =>
    intro ts w hw
    cases ts with
    | nil => simp [naiveWindows] at hw
    | cons t ts' => simp [naiveWindows] at hw
  | succ f ih =>
    intro ts w hw
    cases ts with
    | nil => simp [naiveWindows] at hw
    | cons t ts' =>
      simp only [naiveWindows, List.mem_cons] at hw
      rcases hw with h | h
      · subst h; exact List.length_take_le _ _
      · exact ih _ w h

lemma naiveWindows_count_50_10 :
    ∀ fuel (ts : List ℕ), ts.length ≤ fuel →
      (naiveWindows 50 40 fuel ts).length = (ts.length + 39) / 40 := by
  intro fuel
  induction fuel with
  | zero =>
    intro ts hle
    have : ts = [] := List.eq_nil_of_length_eq_zero (Nat.le_zero.mp hle)
    subst this
    simp [naiveWindows]
  | succ f ih =>
    intro ts hle
    cases ts with
    | nil => simp [naiveWindows]
    | cons t ts' =>
      have hdrop : ((t :: ts').drop 40).length = (t :: ts').length - 40 := List.length_drop ..
      have hle' : ((t :: ts').drop 40).length ≤ f := by
        rw [hdrop]
        simp only [List.length_cons] at hle ⊢
        omega
      have := ih _ hle'
      rw [show naiveWindows 50 40 (f + 1) (t :: ts') =
            (t :: ts').take 50 :: naiveWindows 50 40 f ((t :: ts').drop 40) from rfl]
      simp only [List.length_cons]
      rw [this, hdrop]
      simp only [List.length_cons]
      omega

/-- C5: counterexample. For a 90-token input (more than `chunk_size = 50`
tokens), `naive_chunk` with `chunk_size=50, overlap=10` emits 3 windows
(starts 0, 40, 80), not the claimed `ceil((total_tokens-50)/40)+1 = 2`:
the last stride lands inside the previous window's overlap and still emits
a window. -/
theorem c5_count_counterexample :
    50 < (List.range 90).length ∧
    (naive_chunk (List.range 90) 50 10).length ≠ ((List.range 90).length - 50 + 39) / 40 + 1 := by
  decide

/-- C5 (amended): with `chunk_size=50, overlap=10` the naive chunker emits
exactly `ceil(total_tokens/40)` windows — one per window start
`0, 40, 80, ...` strictly below the token count, so the final partial window
is always emitted — and every window holds at most 50 tokens. -/
theorem c5_naive_chunk_count (tokens : List ℕ) :
    (naive_chunk tokens 50 10).length = (tokens.length + 39) / 40 ∧
    ∀ w ∈ naive_chunk tokens 50 10, w.length ≤ 50 := by
  constructor
  · exact naiveWindows_count_50_10 tokens.length tokens le_rfl
  · exact naiveWindows_length_le 50 40 tokens.length tokens

lemma semStep_min_chunks (tc : String → ℕ) (embeds : List (List ℚ)) (θ : ℚ) (maxT minT : ℕ)
    (st : SemState) (p : ℕ × String)
    (h : ∀ c ∈ st.chunks, minT ≤ c.token_count) :
    ∀ c ∈ (semStep tc embeds θ maxT minT st p).chunks, minT ≤ c.token_count := by
  intro c hc
  simp only [semStep] at hc
  split at hc
  · exact h c hc
  · split at hc
    · exact h c hc
    · simp only [List.mem_append] at hc
      rcases hc with hc | hc
      · exact h c hc
      · split at hc
        · rename_i hmin
          simp only [List.mem_singleton] at hc
          subst hc
          exact hmin
        · simp at hc

lemma semFold_min_chunks (tc : String → ℕ) (embeds : List (List ℚ)) (θ : ℚ) (maxT minT : ℕ) :
    ∀ (l : List (ℕ × String)) (st : SemState),
      (∀ c ∈ st.chunks, minT ≤ c.token_count) →
      ∀ c ∈ (l.foldl (semStep tc embeds θ maxT minT) st).chunks, minT ≤ c.token_count := by
  intro l
  induction l with
  | nil => intro st h; simpa using h
  | cons p rest ih =>
    intro st h
    simp only [List.foldl_cons]
    exact ih _ (semStep_min_chunks tc embeds θ maxT minT st p h)

/-- C2: in `semantic_chunk`, (a) whenever the merge test fails for a candidate
sentence while a chunk is open, the open chunk is appended to the output
exactly when its running token count is at least `min_tokens` (otherwise it is
dropped) and the new open chunk is exactly the candidate sentence; (b) hence
every emitted chunk has `token_count ≥ min_tokens`; (c) at end of input the
final open chunk is flushed exactly when it is non-empty and meets
`min_tokens`. -/
theorem c2_boundary_emission (tc : String → ℕ) (embeds : List (List ℚ)) (θ : ℚ) (maxT minT : ℕ) :
    (∀ (st : SemState) (i : ℕ) (s : String), st.current ≠ [] →
        mergeOk θ maxT st.current_tokens
          (cosineSim (chunkEmbedding embeds st) (embeds.getD i [])) (tc s) = false →
        semStep tc embeds θ maxT minT st (i, s) =
          { chunks := st.chunks ++ (if minT ≤ st.current_tokens then [mkSemChunk st] else []),
            current := [s], current_tokens := tc s }) ∧
    (∀ (sentences : List String) (c : SemChunk),
        c ∈ semantic_chunk tc embeds sentences θ maxT minT → minT ≤ c.token_count) ∧
    (∀ (sentences : List String), sentences ≠ [] →
        semantic_chunk tc embeds sentences θ maxT minT =
          (sentences.enum.foldl (semStep tc embeds θ maxT minT) ⟨[], [], 0⟩).chunks ++
            (if (sentences.enum.foldl (semStep tc embeds θ maxT minT) ⟨[], [], 0⟩).current ≠ [] ∧
                minT ≤ (sentences.enum.foldl (semStep tc embeds θ maxT minT) ⟨[], [], 0⟩).current_tokens
             then [mkSemChunk (sentences.enum.foldl (semStep tc embeds θ maxT minT) ⟨[], [], 0⟩)]
             else [])) := by
  refine ⟨?_, ?_, ?_⟩
  · intro st i s hne hm
    have hemp : st.current.isEmpty = false := by
      cases hcur : st.current with
      | nil => exact absurd hcur hne
      | cons a l => simp
    simp only [semStep, hemp, Bool.false_eq_true, if_false, hm]
  · intro sentences c hc
    by_cases hs : sentences.isEmpty
    · simp only [semantic_chunk, hs, if_true] at hc
      simp at hc
    · simp only [semantic_chunk, hs, Bool.false_eq_true, if_false, List.mem_append] at hc
      rcases hc with hc | hc
      · exact semFold_min_chunks tc embeds θ maxT minT sentences.enum ⟨[], [], 0⟩ (by simp) c hc
      · split at hc
        · rename_i hcond
          simp only [List.mem_singleton] at hc
          subst hc
          exact hcond.2
        · simp at hc
  · intro sentences hne
    have hs : sentences.isEmpty = false := by
      cases sentences with
      | nil => exact absurd rfl hne
      | cons a l => simp
    simp only [semantic_chunk, hs, Bool.false_eq_true, if_false]

lemma ratSqrt_one : Rat.sqrt 1 = 1 := by
  have h := Rat.sqrt_eq (1 : ℚ)
  rw [mul_one, abs_one] at h
  exact h

lemma cos_e0_e1 : cosineSim [(1 : ℚ), 0] [0, 1] = 0 := by
  norm_num [cosineSim, dotL, normL, ratSqrt_one]

lemma cos_e0_e0 : cosineSim [(1 : ℚ), 0] [1, 0] = 1 := by
  norm_num [cosineSim, dotL, normL, ratSqrt_one]

lemma cos_e1_e0 : cosineSim [(0 : ℚ), 1] [1, 0] = 0 := by
  norm_num [cosineSim, dotL, normL, ratSqrt_one]

lemma w_fold_code :
    sentsW.enum.foldl (semStep tcW embW (7/10) 100 1) ⟨[], [], 0⟩ =
      ⟨[⟨"s0", 0, 10, 1⟩], ["s1", "s2"], 20⟩ := by
  have e1 : semStep tcW embW (7/10) 100 1 ⟨[], ["s0"], 10⟩ (1, "s1") =
      ⟨[⟨"s0", 0, 10, 1⟩], ["s1"], 10⟩ := by
    have hm : mergeOk (7/10) 100 10
        (cosineSim (chunkEmbedding embW ⟨[], ["s0"], 10⟩) (embW.getD 1 [])) (tcW "s1") = false := by
      rw [show chunkEmbedding embW ⟨[], ["s0"], 10⟩ = meanVec [[1, 0]] from rfl,
          show meanVec [[(1 : ℚ), 0]] = [1 / 1, 0 / 1] from rfl,
          show (embW.getD 1 []) = [0, 1] from rfl]
      norm_num [mergeOk, cos_e0_e1]
    simp only [semStep, List.isEmpty_cons, Bool.false_eq_true, if_false]
    rw [hm]
    simp [mkSemChunk, pyJoin, tcW]
  have e2 : semStep tcW embW (7/10) 100 1 ⟨[⟨"s0", 0, 10, 1⟩], ["s1"], 10⟩ (2, "s2") =
      ⟨[⟨"s0", 0, 10, 1⟩], ["s1", "s2"], 20⟩ := by
    have hm : mergeOk (7/10) 100 10
        (cosineSim (chunkEmbedding embW ⟨[⟨"s0", 0, 10, 1⟩], ["s1"], 10⟩) (embW.getD 2 []))
        (tcW "s2") = true := by
      rw [show chunkEmbedding embW ⟨[⟨"s0", 0, 10, 1⟩], ["s1"], 10⟩ = meanVec [[1, 0]] from rfl,
          show meanVec [[(1 : ℚ), 0]] = [1 / 1, 0 / 1] from rfl,
          show (embW.getD 2 []) = [1, 0] from rfl]
      norm_num [mergeOk, tcW]
      norm_num [cosineSim, dotL, normL, ratSqrt_one]
    simp only [semStep, List.isEmpty_cons, Bool.false_eq_true, if_false]
    rw [hm]
    simp [tcW]
  show List.foldl (semStep tcW embW (7/10) 100 1) ⟨[], [], 0⟩
      [(0, "s0"), (1, "s1"), (2, "s2")] = _
  rw [List.foldl_cons, show semStep tcW embW (7/10) 100 1 ⟨[], [], 0⟩ (0, "s0") =
        ⟨[], ["s0"], 10⟩ from rfl,
      List.foldl_cons, e1, List.foldl_cons, e2, List.foldl_nil]

lemma w_fold_spec :
    sentsW.enum.foldl (semStepS tcW embW (7/10) 100 1) ⟨[], [], [], 0⟩ =
      ⟨[⟨"s0", 0, 10, 1⟩, ⟨"s1", 1, 10, 1⟩], ["s2"], [2], 10⟩ := by
  have e1 : semStepS tcW embW (7/10) 100 1 ⟨[], ["s0"], [0], 10⟩ (1, "s1") =
      ⟨[⟨"s0", 0, 10, 1⟩], ["s1"], [1], 10⟩ := by
    have hm : mergeOk (7/10) 100 10
        (cosineSim (chunkEmbeddingS embW ⟨[], ["s0"], [0], 10⟩) (embW.getD 1 [])) (tcW "s1") = false := by
      rw [show chunkEmbeddingS embW ⟨[], ["s0"], [0], 10⟩ = meanVec [[1, 0]] from rfl,
          show meanVec [[(1 : ℚ), 0]] = [1 / 1, 0 / 1] from rfl,
          show (embW.getD 1 []) = [0, 1] from rfl]
      norm_num [mergeOk, cos_e0_e1]
    simp only [semStepS, List.isEmpty_cons, Bool.false_eq_true, if_false]
    rw [hm]
    simp [mkSemChunkS, pyJoin, tcW]
  have e2 : semStepS tcW embW (7/10) 100 1 ⟨[⟨"s0", 0, 10, 1⟩], ["s1"], [1], 10⟩ (2, "s2") =
      ⟨[⟨"s0", 0, 10, 1⟩, ⟨"s1", 1, 10, 1⟩], ["s2"], [2], 10⟩ := by
    have hm : mergeOk (7/10) 100 10
        (cosineSim (chunkEmbeddingS embW ⟨[⟨"s0", 0, 10, 1⟩], ["s1"], [1], 10⟩) (embW.getD 2 []))
        (tcW "s2") = false := by
      rw [show chunkEmbeddingS embW ⟨[⟨"s0", 0, 10, 1⟩], ["s1"], [1], 10⟩ = meanVec [[0, 1]] from rfl,
          show meanVec [[(0 : ℚ), 1]] = [0 / 1, 1 / 1] from rfl,
          show (embW.getD 2 []) = [1, 0] from rfl]
      norm_num [mergeOk, cos_e1_e0]
    simp only [semStepS, List.isEmpty_cons, Bool.false_eq_true, if_false]
    rw [hm]
    simp [mkSemChunkS, pyJoin, tcW]
  show List.foldl (semStepS tcW embW (7/10) 100 1) ⟨[], [], [], 0⟩
      [(0, "s0"), (1, "s1"), (2, "s2")] = _
  rw [List.foldl_cons, show semStepS tcW embW (7/10) 100 1 ⟨[], [], [], 0⟩ (0, "s0") =
        ⟨[], ["s0"], [0], 10⟩ from rfl,
      List.foldl_cons, e1, List.foldl_cons, e2, List.foldl_nil]

/-- C1: the code computes the "chunk mean" over `embeddings_array[j]` for
`j in range(len(current_chunk))` — the first sentences of the DOCUMENT — not
over the open chunk's sentences. On the concrete input the third sentence is
compared against `e0` (similarity 1, merge) although the open chunk is
`[s1]` with mean `e1` (similarity 0, boundary): the source model yields 2
chunks where the spec's algorithm yields 3. -/
theorem c1_mean_embedding_divergence :
    (semantic_chunk tcW embW sentsW (7/10) 100 1).length = 2 ∧
    (semantic_chunk_spec tcW embW sentsW (7/10) 100 1).length = 3 := by
  constructor
  · rw [show semantic_chunk tcW embW sentsW (7/10) 100 1 =
        (sentsW.enum.foldl (semStep tcW embW (7/10) 100 1) ⟨[], [], 0⟩).chunks ++
          (if (sentsW.enum.foldl (semStep tcW embW (7/10) 100 1) ⟨[], [], 0⟩).current ≠ [] ∧
              1 ≤ (sentsW.enum.foldl (semStep tcW embW (7/10) 100 1) ⟨[], [], 0⟩).current_tokens
           then [mkSemChunk (sentsW.enum.foldl (semStep tcW embW (7/10) 100 1) ⟨[], [], 0⟩)]
           else []) from rfl,
        w_fold_code]
    simp
  · rw [show semantic_chunk_spec tcW embW sentsW (7/10) 100 1 =
        (sentsW.enum.foldl (semStepS tcW embW (7/10) 100 1) ⟨[], [], [], 0⟩).chunks ++
          (if (sentsW.enum.foldl (semStepS tcW embW (7/10) 100 1) ⟨[], [], [], 0⟩).current ≠ [] ∧
              1 ≤ (sentsW.enum.foldl (semStepS tcW embW (7/10) 100 1) ⟨[], [], [], 0⟩).current_tokens
           then [mkSemChunkS (sentsW.enum.foldl (semStepS tcW embW (7/10) 100 1) ⟨[], [], [], 0⟩)]
           else []) from rfl,
        w_fold_spec]
    simp

/-- C2 witness: the boundary case of `c2_boundary_emission` instantiated at a
concrete open chunk and candidate sentence. -/
theorem c2_boundary_emission_witness :
    semStep tcW embW (7/10) 100 1 ⟨[], ["s0"], 10⟩ (1, "s1") =
      { chunks := ([] : List SemChunk) ++ (if 1 ≤ 10 then [mkSemChunk ⟨[], ["s0"], 10⟩] else []),
        current := ["s1"], current_tokens := tcW "s1" } := by
  refine (c2_boundary_emission tcW embW (7/10) 100 1).1 ⟨[], ["s0"], 10⟩ 1 "s1" (by decide) ?_
  rw [show chunkEmbedding embW ⟨[], ["s0"], 10⟩ = meanVec [[1, 0]] from rfl,
      show meanVec [[(1 : ℚ), 0]] = [1 / 1, 0 / 1] from rfl,
      show (embW.getD 1 []) = [0, 1] from rfl]
  norm_num [mergeOk, cos_e0_e1]

set_option maxRecDepth 100000 in
/-- C3: counterexample. In demo mode two successive invocations on the same
input `["a"]` read disjoint segments of the RNG stream and return different
vectors: the fallback is not a pure function of the input. -/
theorem c3_fallback_not_deterministic :
    (get_embeddings_batch_demo demoStream 0 ["a"]).1 ≠
      (get_embeddings_batch_demo demoStream
        (get_embeddings_batch_demo demoStream 0 ["a"]).2 ["a"]).1 := by
  decide

/-- C3 (amended): the demo-mode fallback is deterministic only as a function
of the RNG stream segment it consumes together with the input: two streams
that agree on the `1536 * len(texts)` variates from the current position give
identical results. Successive calls advance the position, so repeated calls
on the same input generally differ (see the counterexample). -/
theorem c3_fallback_deterministic_in_stream (rng1 rng2 : ℕ → ℚ) (pos : ℕ)
    (texts : List String)
    (h : ∀ i, i < 1536 * texts.length → rng1 (pos + i) = rng2 (pos + i)) :
    get_embeddings_batch_demo rng1 pos texts = get_embeddings_batch_demo rng2 pos texts := by
  unfold get_embeddings_batch_demo
  refine Prod.ext ?_ rfl
  refine List.map_congr_left ?_
  intro p hp
  refine List.map_congr_left ?_
  intro j hj
  have hplen : p.1 < texts.length := by
    have := List.mem_enum_iff_getElem?.mp hp
    exact (List.getElem?_eq_some.mp this).1
  have hjlt : j < 1536 := List.mem_range.mp hj
  have hi : 1536 * p.1 + j < 1536 * texts.length := by
    have h1 : p.1 + 1 ≤ texts.length := hplen
    calc 1536 * p.1 + j < 1536 * p.1 + 1536 := by omega
    _ = 1536 * (p.1 + 1) := by ring
    _ ≤ 1536 * texts.length := Nat.mul_le_mul_left _ h1
  have := h (1536 * p.1 + j) hi
  calc rng1 (pos + 1536 * p.1 + j) = rng1 (pos + (1536 * p.1 + j)) := by ring_nf
  _ = rng2 (pos + (1536 * p.1 + j)) := this
  _ = rng2 (pos + 1536 * p.1 + j) := by ring_nf

/-- C3 witness: the amended determinism theorem applied at a concrete stream,
position and input. -/
theorem c3_fallback_deterministic_in_stream_witness :
    get_embeddings_batch_demo demoStream 0 ["a"] = get_embeddings_batch_demo demoStream 0 ["a"] :=
  c3_fallback_deterministic_in_stream demoStream demoStream 0 ["a"] (fun _ _ => rfl)

/-- C7: per-answer faithfulness is 0 when the answer is empty or the context
list is empty; 1 when statements extraction yields nothing (regardless of the
context); and otherwise the supported-statement fraction. -/
theorem c7_faithfulness_edge_cases (answer : String) (contexts : List String) :
    ((answer = "" ∨ contexts = []) → single_faithfulness answer contexts = 0) ∧
    (answer ≠ "" → contexts ≠ [] → extract_statements answer = [] →
      single_faithfulness answer contexts = 1) ∧
    (answer ≠ "" → contexts ≠ [] → extract_statements answer ≠ [] →
      single_faithfulness answer contexts =
        ((extract_statements answer).filter
          (fun s => is_statement_supported s (pyLowerS (pyJoin " " contexts)))).length /
          ((extract_statements answer).length : ℚ)) := by
  refine ⟨?_, ?_, ?_⟩
  · intro h
    simp only [single_faithfulness, if_pos h]
  · intro h1 h2 h3
    have hn : ¬ (answer = "" ∨ contexts = []) := by
      rintro (h | h)
      · exact h1 h
      · exact h2 h
    simp [single_faithfulness, hn, h3]
  · intro h1 h2 h3
    have hn : ¬ (answer = "" ∨ contexts = []) := by
      rintro (h | h)
      · exact h1 h
      · exact h2 h
    simp only [single_faithfulness, if_neg hn, if_neg h3]

/-- C7 witness: the 2-word answer "Paris France" produces no statements, so
its faithfulness is 1 whatever the context. -/
theorem c7_faithfulness_edge_cases_witness :
    single_faithfulness "Paris France" ["some context"] = 1 :=
  (c7_faithfulness_edge_cases "Paris France" ["some context"]).2.1
    (by decide) (by decide) (by decide)

lemma ratio_mem_unit (m n : ℕ) (h : m ≤ n) :
    0 ≤ ((m : ℚ) / (n : ℚ)) ∧ ((m : ℚ) / (n : ℚ)) ≤ 1 := by
  constructor
  · positivity
  · rcases Nat.eq_zero_or_pos n with h0 | h0
    · subst h0
      have : m = 0 := Nat.le_zero.mp h
      subst this
      norm_num
    · rw [div_le_one (by exact_mod_cast h0)]
      exact_mod_cast h

lemma mean_mem_unit (l : List ℚ) (h : ∀ x ∈ l, 0 ≤ x ∧ x ≤ 1) :
    0 ≤ (if l = [] then 0 else l.sum / (l.length : ℚ)) ∧
    (if l = [] then 0 else l.sum / (l.length : ℚ)) ≤ 1 := by
  split
  · norm_num
  · rename_i hne
    have hpos : (0 : ℚ) < l.length := by
      have : l.length ≠ 0 := fun hh => hne (List.eq_nil_of_length_eq_zero hh)
      exact_mod_cast Nat.pos_of_ne_zero this
    constructor
    · apply div_nonneg _ hpos.le
      exact List.sum_nonneg (fun x hx => (h x hx).1)
    · rw [div_le_one hpos]
      have := List.sum_le_card_nsmul l 1 (fun x hx => (h x hx).2)
      simpa using this

lemma single_faithfulness_unit (a : String) (ctxs : List String) :
    0 ≤ single_faithfulness a ctxs ∧ single_faithfulness a ctxs ≤ 1 := by
  simp only [single_faithfulness]
  split
  · norm_num
  · split
    · norm_num
    · exact ratio_mem_unit _ _ (List.length_filter_le _ _)

lemma fallback_relevancy_unit (q a : String) :
    0 ≤ fallback_relevancy q a ∧ fallback_relevancy q a ≤ 1 := by
  simp only [fallback_relevancy]
  split
  · norm_num
  · constructor
    · apply le_min _ zero_le_one
      positivity
    · exact min_le_right _ _

lemma single_relevancy_fb_unit (q a : String) :
    0 ≤ single_relevancy_fb q a ∧ single_relevancy_fb q a ≤ 1 := by
  simp only [single_relevancy_fb]
  split
  · norm_num
  · exact fallback_relevancy_unit q a

lemma precision_sum_go_nonneg : ∀ (l : List ℚ) (k s : ℕ), 0 ≤ precision_sum_go l k s := by
  intro l
  induction l with
  | nil => intro k s; simp [precision_sum_go]
  | cons r rest ih =>
    intro k s
    simp only [precision_sum_go]
    split
    · have h1 : (0 : ℚ) ≤ ((s + 1 : ℕ) : ℚ) / ((k + 1 : ℕ) : ℚ) := by positivity
      have h2 := ih (k + 1) (s + 1)
      linarith
    · exact ih (k + 1) s

lemma precision_sum_go_le :
    ∀ (l : List ℚ) (k s : ℕ), s ≤ k →
      precision_sum_go l k s ≤ ((l.filter (fun r => r ≠ 0)).length : ℚ) := by
  intro l
  induction l with
  | nil => intro k s _; simp [precision_sum_go]
  | cons r rest ih =>
    intro k s hsk
    simp only [precision_sum_go, List.filter_cons]
    split
    · rename_i hr
      have hterm : ((s + 1 : ℕ) : ℚ) / ((k + 1 : ℕ) : ℚ) ≤ 1 := by
        rw [div_le_one (by positivity)]
        exact_mod_cast Nat.succ_le_succ hsk
      have hrest := ih (k + 1) (s + 1) (Nat.succ_le_succ hsk)
      rw [if_pos (by exact decide_eq_true hr)]
      simp only [List.length_cons]
      push_cast at hterm hrest ⊢
      linarith
    · rename_i hr
      have hrest := ih (k + 1) s (hsk.trans (Nat.le_succ k))
      rw [if_neg (by simpa using hr)]
      exact hrest

lemma indicator_sum_eq {α : Type} (l : List α) (p : α → Bool) :
    (l.map (fun c => if p c then (1 : ℚ) else 0)).sum = ((l.filter p).length : ℚ) := by
  induction l with
  | nil => simp
  | cons c rest ih =>
    by_cases hp : p c
    · simp only [List.map_cons, List.sum_cons, List.filter_cons, if_pos hp, ih,
        List.length_cons]
      push_cast
      ring
    · simp only [List.map_cons, List.sum_cons, List.filter_cons, hp, if_false,
        Bool.false_eq_true, ih]
      ring

lemma indicator_filter_length {α : Type} (l : List α) (p : α → Bool) :
    ((l.map (fun c => if p c then (1 : ℚ) else 0)).filter (fun r => r ≠ 0)).length =
      (l.filter p).length := by
  induction l with
  | nil => simp
  | cons c rest ih =>
    by_cases hp : p c
    · simp only [List.map_cons, List.filter_cons, if_pos hp]
      rw [if_pos (by norm_num)]
      simp only [List.length_cons, ih]
    · simp only [List.map_cons, List.filter_cons, hp, Bool.false_eq_true, if_false]
      rw [if_neg (by norm_num)]
      exact ih

lemma single_precision_unit (q : String) (ctxs : List String) (gt : String) :
    0 ≤ single_precision q ctxs gt ∧ single_precision q ctxs gt ≤ 1 := by
  simp only [single_precision]
  split
  · norm_num
  · split
    · norm_num
    · rename_i hne hsum
      set rs := ctxs.map (fun c => if is_context_relevant_to_answer c gt q then (1 : ℚ) else 0)
        with hrs
      have hcount : rs.sum = ((rs.filter (fun r => r ≠ 0)).length : ℚ) := by
        rw [hrs, indicator_sum_eq, indicator_filter_length]
      have hpos : 0 < rs.sum := by
        rcases lt_or_eq_of_le (by rw [hcount]; positivity : (0 : ℚ) ≤ rs.sum) with h | h
        · exact h
        · exact absurd h.symm hsum
      constructor
      · exact div_nonneg (precision_sum_go_nonneg rs 0 0) hpos.le
      · rw [div_le_one hpos, hcount]
        exact precision_sum_go_le rs 0 0 le_rfl

lemma single_recall_unit (ctxs : List String) (gt : String) :
    0 ≤ single_recall ctxs gt ∧ single_recall ctxs gt ≤ 1 := by
  simp only [single_recall]
  split
  · norm_num
  · split
    · norm_num
    · split
      · norm_num
      · exact ratio_mem_unit _ _ (List.length_filter_le _ _)

lemma inter_length_le_right (l1 l2 : List String) (h : l1.Nodup) :
    (l1.inter l2).length ≤ l2.length :=
  ((l1.inter l2).subperm_of_subset (h.inter l2) List.inter_subset_right).length_le

lemma compute_factual_similarity_unit (a gt : String) :
    0 ≤ compute_factual_similarity a gt ∧ compute_factual_similarity a gt ≤ 1 := by
  simp only [compute_factual_similarity]
  split
  · split
    · norm_num
    · norm_num
  · split
    · norm_num
    · rename_i hgt hans
      split
      · norm_num
      · rename_i hpr
        have hafnd : (extract_facts a).Nodup := by
          simp only [extract_facts]
          exact List.nodup_dedup _
        have hle1 : ((extract_facts a).inter (extract_facts gt)).length ≤
            (extract_facts a).length := List.length_filter_le _ _
        have hle2 : ((extract_facts a).inter (extract_facts gt)).length ≤
            (extract_facts gt).length := inter_length_le_right _ _ hafnd
        obtain ⟨hp0, hp1⟩ := ratio_mem_unit _ _ hle1
        obtain ⟨hr0, hr1⟩ := ratio_mem_unit _ _ hle2
        set p := (((extract_facts a).inter (extract_facts gt)).length : ℚ) /
          ((extract_facts a).length : ℚ) with hp
        set r := (((extract_facts a).inter (extract_facts gt)).length : ℚ) /
          ((extract_facts gt).length : ℚ) with hr
        have hprpos : 0 < p + r := by
          rcases lt_or_eq_of_le (by linarith : (0 : ℚ) ≤ p + r) with h | h
          · exact h
          · exact absurd h.symm hpr
        constructor
        · positivity
        · rw [div_le_one hprpos]
          nlinarith

lemma single_correctness_fb_unit (a gt : String) :
    0 ≤ single_correctness_fb a gt ∧ single_correctness_fb a gt ≤ 1 := by
  simp only [single_correctness_fb]
  split
  · norm_num
  · obtain ⟨h0, h1⟩ := compute_factual_similarity_unit a gt
    constructor
    · linarith
    · linarith

lemma compute_faithfulness_unit (answers : List String) (contexts : List (List String)) :
    0 ≤ compute_faithfulness answers contexts ∧ compute_faithfulness answers contexts ≤ 1 := by
  simp only [compute_faithfulness]
  apply mean_mem_unit
  intro x hx
  obtain ⟨p, _, rfl⟩ := List.mem_map.mp hx
  exact single_faithfulness_unit p.1 p.2

lemma compute_answer_relevancy_fb_unit (questions answers : List String) :
    0 ≤ compute_answer_relevancy_fb questions answers ∧
    compute_answer_relevancy_fb questions answers ≤ 1 := by
  simp only [compute_answer_relevancy_fb]
  apply mean_mem_unit
  intro x hx
  obtain ⟨p, _, rfl⟩ := List.mem_map.mp hx
  exact single_relevancy_fb_unit p.1 p.2

lemma compute_context_precision_unit (questions : List String) (contexts : List (List String))
    (ground_truths : List String) :
    0 ≤ compute_context_precision questions contexts ground_truths ∧
    compute_context_precision questions contexts ground_truths ≤ 1 := by
  simp only [compute_context_precision]
  apply mean_mem_unit
  intro x hx
  obtain ⟨p, _, rfl⟩ := List.mem_map.mp hx
  exact single_precision_unit p.1 p.2.1 p.2.2

lemma compute_context_recall_unit (contexts : List (List String)) (ground_truths : List String) :
    0 ≤ compute_context_recall contexts ground_truths ∧
    compute_context_recall contexts ground_truths ≤ 1 := by
  simp only [compute_context_recall]
  apply mean_mem_unit
  intro x hx
  obtain ⟨p, _, rfl⟩ := List.mem_map.mp hx
  exact single_recall_unit p.1 p.2

lemma compute_answer_correctness_fb_unit (answers ground_truths : List String) :
    0 ≤ compute_answer_correctness_fb answers ground_truths ∧
    compute_answer_correctness_fb answers ground_truths ≤ 1 := by
  simp only [compute_answer_correctness_fb]
  apply mean_mem_unit
  intro x hx
  obtain ⟨p, _, rfl⟩ := List.mem_map.mp hx
  exact single_correctness_fb_unit p.1 p.2

/-- C4: counterexample. With an embedding model whose question and answer
embeddings are antipodal unit vectors, `compute_answer_relevancy` returns the
raw cosine similarity −1: it is NOT floored at 0 and lies outside `[0,1]`. -/
theorem c4_relevancy_negative_counterexample :
    compute_answer_relevancy_model encNeg ["q"] ["a"] < 0 := by
  have h : compute_answer_relevancy_model encNeg ["q"] ["a"] =
      cosineSim [1] [-1] / ((1 : ℕ) : ℚ) := by
    simp [compute_answer_relevancy_model, encNeg]
  rw [h]
  have hc : cosineSim [(1 : ℚ)] [-1] = -1 := by
    norm_num [cosineSim, dotL, normL, ratSqrt_one]
  rw [hc]
  norm_num

/-- C4 (amended): on the no-embedding-model (fallback) path, every per-question
and every averaged RAGAS metric lies in `[0,1]`. With an embedding model,
`compute_answer_relevancy` returns the raw cosine similarity of the question
and answer embeddings — it is not floored at 0 and can be negative (see the
counterexample); `answer_correctness` likewise mixes in the raw cosine. -/
theorem c4_ragas_metrics_range (questions answers ground_truths : List String)
    (contexts : List (List String)) (q a gt : String) (ctxs : List String)
    (enc : String → List ℚ) :
    (0 ≤ single_faithfulness a ctxs ∧ single_faithfulness a ctxs ≤ 1) ∧
    (0 ≤ single_relevancy_fb q a ∧ single_relevancy_fb q a ≤ 1) ∧
    (0 ≤ single_precision q ctxs gt ∧ single_precision q ctxs gt ≤ 1) ∧
    (0 ≤ single_recall ctxs gt ∧ single_recall ctxs gt ≤ 1) ∧
    (0 ≤ single_correctness_fb a gt ∧ single_correctness_fb a gt ≤ 1) ∧
    (0 ≤ compute_faithfulness answers contexts ∧ compute_faithfulness answers contexts ≤ 1) ∧
    (0 ≤ compute_answer_relevancy_fb questions answers ∧
      compute_answer_relevancy_fb questions answers ≤ 1) ∧
    (0 ≤ compute_context_precision questions contexts ground_truths ∧
      compute_context_precision questions contexts ground_truths ≤ 1) ∧
    (0 ≤ compute_context_recall contexts ground_truths ∧
      compute_context_recall contexts ground_truths ≤ 1) ∧
    (0 ≤ compute_answer_correctness_fb answers ground_truths ∧
      compute_answer_correctness_fb answers ground_truths ≤ 1) ∧
    (q ≠ "" → a ≠ "" →
      compute_answer_relevancy_model enc [q] [a] = cosineSim (enc q) (enc a)) := by
  refine ⟨single_faithfulness_unit a ctxs, single_relevancy_fb_unit q a,
    single_precision_unit q ctxs gt, single_recall_unit ctxs gt,
    single_correctness_fb_unit a gt, compute_faithfulness_unit answers contexts,
    compute_answer_relevancy_fb_unit questions answers,
    compute_context_precision_unit questions contexts ground_truths,
    compute_context_recall_unit contexts ground_truths,
    compute_answer_correctness_fb_unit answers ground_truths, ?_⟩
  intro hq ha
  simp [compute_answer_relevancy_model, hq, ha]

/-- C4 witness: the unfloored-cosine conjunct of the amended theorem applied to
the concrete encoder of the counterexample. -/
theorem c4_ragas_metrics_range_witness :
    compute_answer_relevancy_model encNeg ["q"] ["a"] = cosineSim (encNeg "q") (encNeg "a") :=
  (c4_ragas_metrics_range ["q"] ["a"] ["g"] [["c"]] "q" "a" "g" ["c"] encNeg).2.2.2.2.2.2.2.2.2.2
    (by decide) (by decide)

/-- C6: counterexample. Without an embedding model the code returns the first
`top_k` chunks in document order; on this input the overlap ranking would put
the second chunk first. -/
theorem c6_fallback_no_ranking_counterexample :
    retrieve_relevant_chunks_no_model "alpha beta" ["xx yy", "alpha beta here"] 3 ≠
      rank_by_overlap "alpha beta" ["xx yy", "alpha beta here"] 3 := by
  decide

/-- C6 (amended): on the no-embedding-provider path the retrieval simulator
returns simply the first `top_k` chunks in original order, independent of the
question: there is no word-overlap ranking in the source's fallback. -/
theorem c6_fallback_returns_first_k (question other : String) (chunks : List String) (k : ℕ) :
    retrieve_relevant_chunks_no_model question chunks k = chunks.take k ∧
    retrieve_relevant_chunks_no_model question chunks k =
      retrieve_relevant_chunks_no_model other chunks k :=
  ⟨rfl, rfl⟩

/-- C10: `coverage_ratio` is the constant 1.0 for every non-empty chunk list
and 0 for the empty one; it is never derived from the chunks or the document,
so any two non-empty inputs get the same value. -/
theorem c10_coverage_constant (chunks chunks2 : List String) :
    (calculate_chunking_quality []).coverage = 0 ∧
    (chunks ≠ [] → (calculate_chunking_quality chunks).coverage = 1) ∧
    (chunks ≠ [] → chunks2 ≠ [] →
      (calculate_chunking_quality chunks).coverage =
        (calculate_chunking_quality chunks2).coverage) := by
  refine ⟨rfl, ?_, ?_⟩
  · intro h
    simp [calculate_chunking_quality, h]
  · intro h1 h2
    simp [calculate_chunking_quality, h1, h2]

/-- C10 witness: the constant evaluated at a concrete non-empty chunk list. -/
theorem c10_coverage_constant_witness :
    (calculate_chunking_quality ["a"]).coverage = 1 :=
  (c10_coverage_constant ["a"] ["bb"]).2.1 (by decide)

/-- C9: counterexample. On this input the 4th-ranked qualifying sentence IS
appended although there are 4 (not fewer than 3) qualifying sentences: the
source's condition (line 245) is `len(relevant_sentences) > 3`, the reverse
of the claimed "fewer than 3 qualifying sentences" (under which a 4th-ranked
sentence cannot even exist). -/
theorem c9_append_condition_counterexample :
    simulate_answer_generation "info about zebra quokka"
        ["zebra a. zebra b. zebra c. zebra d."] =
      "zebra a. zebra b. zebra c. zebra d" ∧
    ¬ ((qualifying_sentences "info about zebra quokka"
        ["zebra a. zebra b. zebra c. zebra d."]).length < 3) := by
  constructor
  · decide
  · decide

/-- C9 (amended): whenever MORE than 3 qualifying sentences were found and the
cleaned answer joined from the top 3 is shorter than 50 characters, the
4th-ranked qualifying sentence is appended after ". ". -/
theorem c9_short_answer_extension (question : String) (contexts : List String)
    (h1 : contexts ≠ [])
    (h2 : (pyStrip (pyReplace
      (pyJoin ". " (((qualifying_sentences question contexts).take 3).map Prod.snd))
      ".." ".")).length < 50)
    (h3 : 3 < (qualifying_sentences question contexts).length) :
    simulate_answer_generation question contexts =
      pyStrip (pyReplace
        (pyJoin ". " (((qualifying_sentences question contexts).take 3).map Prod.snd))
        ".." ".") ++ ". " ++ ((qualifying_sentences question contexts).getD 3 (0, "")).2 := by
  have hre : qualifying_sentences question contexts ≠ [] := by
    intro h
    rw [h] at h3
    simp at h3
  simp only [simulate_answer_generation]
  rw [if_neg h1, if_neg hre, if_pos ⟨h2, h3⟩]

/-- C9 witness: the amended theorem applied at the concrete input of the
counterexample. -/
theorem c9_short_answer_extension_witness :
    simulate_answer_generation "info about zebra quokka"
        ["zebra a. zebra b. zebra c. zebra d."] =
      pyStrip (pyReplace
        (pyJoin ". " (((qualifying_sentences "info about zebra quokka"
          ["zebra a. zebra b. zebra c. zebra d."]).take 3).map Prod.snd))
        ".." ".") ++ ". " ++
        ((qualifying_sentences "info about zebra quokka"
          ["zebra a. zebra b. zebra c. zebra d."]).getD 3 (0, "")).2 :=
  c9_short_answer_extension "info about zebra quokka"
    ["zebra a. zebra b. zebra c. zebra d."] (by decide) (by decide) (by decide)

/-- C8: comparing an evaluation result with itself gives improvement 0.0 for
every metric (whichever branch of the percent rule applies), an empty
significant-metrics list whatever the simulated significance tests returned,
and the "Neutral" recommendation string. -/
theorem c8_compare_self_neutral (r : RagasMetric → ℚ) (significant : RagasMetric → Bool) :
    (∀ m, calculate_ragas_improvements r r m = 0) ∧
    significant_metrics significant (calculate_ragas_improvements r r) = [] ∧
    generate_recommendation
      (overall_ragas_improvement (calculate_ragas_improvements r r))
      (significant_metrics significant (calculate_ragas_improvements r r))
      (calculate_ragas_improvements r r) =
      "Neutral: Both chunking strategies perform similarly. Choice may depend on computational resources and specific requirements." := by
  have himp : ∀ m, calculate_ragas_improvements r r m = 0 := by
    intro m
    simp only [calculate_ragas_improvements]
    split
    · rename_i h0
      rw [h0]
      norm_num
    · rename_i h0
      rw [sub_self, zero_div, zero_mul]
  have hsig : significant_metrics significant (calculate_ragas_improvements r r) = [] := by
    simp only [significant_metrics]
    apply List.filter_eq_nil_iff.mpr
    intro m _
    rw [himp m]
    simp
  have hover : overall_ragas_improvement (calculate_ragas_improvements r r) = 0 := by
    simp only [overall_ragas_improvement]
    rw [show ragasMetricList.map (calculate_ragas_improvements r r) = [0, 0, 0, 0, 0] by
      simp [ragasMetricList, himp]]
    norm_num
  refine ⟨himp, hsig, ?_⟩
  rw [hover, hsig]
  simp only [generate_recommendation]
  norm_num

/-- C8 witness: the theorem applied to a concrete metric dict and test
outcome. -/
theorem c8_compare_self_neutral_witness :
    calculate_ragas_improvements (fun _ => mkRat 1 2) (fun _ => mkRat 1 2)
      RagasMetric.faithfulness = 0 :=
  (c8_compare_self_neutral (fun _ => mkRat 1 2) (fun _ => true)).1 RagasMetric.faithfulness

